import Mathlib

/-!
Shallow embedding of the ESG report-processing pipeline
(`process_esg_report.py` and `esg_parser_gpt4o.py`).

External effects (HTTP requests to the parsing service, language-model
calls, `json.loads` applied to model responses) are modelled as explicit
inputs (oracles) to the embedded functions; everything the repository's
own code does with those inputs is translated directly from the source.
Python/JSON values are modelled by `JsonVal`, with Python `None` and JSON
`null` both represented by `JsonVal.null`.
-/

/-- A JSON-decoded Python value (dicts keep insertion order, as `json.loads`
produces them; keys are unique). -/
inductive JsonVal where
  | null
  | bool (b : Bool)
  | num (n : Int)
  | str (s : String)
  | arr (elems : List JsonVal)
  | obj (fields : List (String × JsonVal))

mutual
/-- Decidable equality for `JsonVal` (written by hand because `deriving`
does not handle the nested occurrence in `arr`/`obj`). -/
def jsonDecEq : (a b : JsonVal) → Decidable (a = b)
  | .null, .null => isTrue rfl
  | .bool a, .bool b =>
    if h : a = b then isTrue (by rw [h]) else isFalse (fun hh => h (JsonVal.bool.inj hh))
  | .num a, .num b =>
    if h : a = b then isTrue (by rw [h]) else isFalse (fun hh => h (JsonVal.num.inj hh))
  | .str a, .str b =>
    if h : a = b then isTrue (by rw [h]) else isFalse (fun hh => h (JsonVal.str.inj hh))
  | .arr xs, .arr ys =>
    match jsonDecEqL xs ys with
    | isTrue h => isTrue (by rw [h])
    | isFalse h => isFalse (fun hh => h (JsonVal.arr.inj hh))
  | .obj xs, .obj ys =>
    match jsonDecEqO xs ys with
    | isTrue h => isTrue (by rw [h])
    | isFalse h => isFalse (fun hh => h (JsonVal.obj.inj hh))
  | .null, .bool _ => isFalse (fun h => JsonVal.noConfusion h)
  | .null, .num _ => isFalse (fun h => JsonVal.noConfusion h)
  | .null, .str _ => isFalse (fun h => JsonVal.noConfusion h)
  | .null, .arr _ => isFalse (fun h => JsonVal.noConfusion h)
  | .null, .obj _ => isFalse (fun h => JsonVal.noConfusion h)
  | .bool _, .null => isFalse (fun h => JsonVal.noConfusion h)
  | .bool _, .num _ => isFalse (fun h => JsonVal.noConfusion h)
  | .bool _, .str _ => isFalse (fun h => JsonVal.noConfusion h)
  | .bool _, .arr _ => isFalse (fun h => JsonVal.noConfusion h)
  | .bool _, .obj _ => isFalse (fun h => JsonVal.noConfusion h)
  | .num _, .null => isFalse (fun h => JsonVal.noConfusion h)
  | .num _, .bool _ => isFalse (fun h => JsonVal.noConfusion h)
  | .num _, .str _ => isFalse (fun h => JsonVal.noConfusion h)
  | .num _, .arr _ => isFalse (fun h => JsonVal.noConfusion h)
  | .num _, .obj _ => isFalse (fun h => JsonVal.noConfusion h)
  | .str _, .null => isFalse (fun h => JsonVal.noConfusion h)
  | .str _, .bool _ => isFalse (fun h => JsonVal.noConfusion h)
  | .str _, .num _ => isFalse (fun h => JsonVal.noConfusion h)
  | .str _, .arr _ => isFalse (fun h => JsonVal.noConfusion h)
  | .str _, .obj _ => isFalse (fun h => JsonVal.noConfusion h)
  | .arr _, .null => isFalse (fun h => JsonVal.noConfusion h)
  | .arr _, .bool _ => isFalse (fun h => JsonVal.noConfusion h)
  | .arr _, .num _ => isFalse (fun h => JsonVal.noConfusion h)
  | .arr _, .str _ => isFalse (fun h => JsonVal.noConfusion h)
  | .arr _, .obj _ => isFalse (fun h => JsonVal.noConfusion h)
  | .obj _, .null => isFalse (fun h => JsonVal.noConfusion h)
  | .obj _, .bool _ => isFalse (fun h => JsonVal.noConfusion h)
  | .obj _, .num _ => isFalse (fun h => JsonVal.noConfusion h)
  | .obj _, .str _ => isFalse (fun h => JsonVal.noConfusion h)
  | .obj _, .arr _ => isFalse (fun h => JsonVal.noConfusion h)
/-- Decidable equality for lists of `JsonVal`. -/
def jsonDecEqL : (xs ys : List JsonVal) → Decidable (xs = ys)
  | [], [] => isTrue rfl
  | [], _ :: _ => isFalse (fun h => List.noConfusion h)
  | _ :: _, [] => isFalse (fun h => List.noConfusion h)
  | x :: xs, y :: ys =>
    match jsonDecEq x y, jsonDecEqL xs ys with
    | isTrue h1, isTrue h2 => isTrue (by rw [h1, h2])
    | isFalse h1, _ => isFalse (fun h => h1 (List.cons.inj h).1)
    | _, isFalse h2 => isFalse (fun h => h2 (List.cons.inj h).2)
/-- Decidable equality for JSON object field lists. -/
def jsonDecEqO : (xs ys : List (String × JsonVal)) → Decidable (xs = ys)
  | [], [] => isTrue rfl
  | [], _ :: _ => isFalse (fun h => List.noConfusion h)
  | _ :: _, [] => isFalse (fun h => List.noConfusion h)
  | (k, v) :: xs, (l, w) :: ys =>
    match String.decEq k l, jsonDecEq v w, jsonDecEqO xs ys with
    | isTrue h1, isTrue h2, isTrue h3 => isTrue (by rw [h1, h2, h3])
    | isFalse h1, _, _ => isFalse (fun h => h1 (congrArg Prod.fst (List.cons.inj h).1))
    | _, isFalse h2, _ => isFalse (fun h => h2 (congrArg Prod.snd (List.cons.inj h).1))
    | _, _, isFalse h3 => isFalse (fun h => h3 (List.cons.inj h).2)
end

instance : DecidableEq JsonVal := jsonDecEq

deriving instance DecidableEq for Except

/-- First-match association lookup, the model of Python `dict.__getitem__`
resolution on a JSON-decoded dict (keys are unique). -/
def objLookup (kvs : List (String × JsonVal)) (k : String) : Option JsonVal :=
  (kvs.find? (fun kv => kv.1 == k)).map (fun kv => kv.2)

/-- Python `d.get(k, dflt)` on a dict. -/
def dictGetD (kvs : List (String × JsonVal)) (k : String) (dflt : JsonVal) : JsonVal :=
  match objLookup kvs k with
  | some v => v
  | none => dflt

/-- Python `x[k]` for a string key `k`: key lookup on dicts (KeyError when
absent), TypeError on every other JSON value. -/
def pySubscript : JsonVal → String → Except String JsonVal
  | .obj kvs, k =>
    match objLookup kvs k with
    | some v => .ok v
    | none => .error ("KeyError: " ++ k)
  | _, _ => .error "TypeError: value is not subscriptable by a string"

/-- `sub` is an initial segment of `cs`. -/
def leadsWith : List Char → List Char → Bool
  | [], _ => true
  | _ :: _, [] => false
  | a :: as, b :: bs => a = b && leadsWith as bs

/-- Worker for `pyFind`: first position at or after `i` where `sub`
occurs. -/
def pyFindAux (sub : List Char) : List Char → Nat → Option Nat
  | [], i => if leadsWith sub [] then some i else none
  | c :: rest, i => if leadsWith sub (c :: rest) then some i else pyFindAux sub rest (i + 1)

/-- Python `k in x` for a string `k`: key membership on dicts, substring
test on strings, membership on lists, TypeError otherwise. -/
def pyContains (k : String) : JsonVal → Except String Bool
  | .obj kvs => .ok (kvs.any (fun kv => kv.1 == k))
  | .str s => .ok (pyFindAux k.toList s.toList 0).isSome
  | .arr xs => .ok (xs.any (fun v => match v with | .str t => t == k | _ => false))
  | _ => .error "TypeError: argument of type is not iterable"

/-- Python `for x in v`: lists iterate their elements, strings iterate
their one-character substrings, dicts iterate their keys, everything else
raises TypeError. -/
def pyIter : JsonVal → Except String (List JsonVal)
  | .arr xs => .ok xs
  | .str s => .ok (s.toList.map (fun c => .str (String.mk [c])))
  | .obj kvs => .ok (kvs.map (fun kv => .str kv.1))
  | _ => .error "TypeError: value is not iterable"

/-- Python truthiness of a JSON-decoded value (`None`, `0`, `""` and empty
containers are falsy). -/
def pyTruthy : JsonVal → Bool
  | .null => false
  | .bool b => b
  | .num n => n != 0
  | .str s => !(decide (s = ""))
  | .arr xs => !xs.isEmpty
  | .obj kvs => !kvs.isEmpty

/-- What one status poll observes: either the HTTP request raised a
`requests` exception (a transport/decoding failure, carrying `str(e)`), or
a JSON response body was obtained. -/
inductive PollInput where
  | transportError (msg : String)
  | response (body : List (String × JsonVal))

/-- `ESGReportProcessor.check_job_status`: returns Python's
`(is_done, error)` pair.  On a transport error the exception is logged and
`(False, str(e))` is returned; on `status == "completed"` it returns
`(True, None)`; on `status == "failed"` it returns
`(True, status.get("error", "未知錯誤"))`; otherwise `(False, None)`. -/
def check_job_status : PollInput → Bool × JsonVal
  | .transportError msg => (false, .str msg)
  | .response body =>
    if objLookup body "status" = some (.str "completed") then (true, .null)
    else if objLookup body "status" = some (.str "failed") then
      (true, dictGetD body "error" (.str "未知錯誤"))
    else (false, .null)

/-- The poll loop of `ESGReportProcessor.wait_for_completion`, with the
idealised clock: status requests are instantaneous and each
`time.sleep(check_interval)` advances time by `interval`, so the `n`-th
status check happens at elapsed time `n * interval`.  The second component
of the result is the elapsed time at which the loop returns.  `statuses n`
is what the `n`-th status request observes. -/
def waitAux (statuses : Nat → PollInput) (interval timeout : Nat)
    (hpos : 0 < interval) (n : Nat) : Bool × Nat :=
  if n * interval > timeout then (false, n * interval)
  else
    match check_job_status (statuses n) with
    | (is_done, error) =>
      if is_done && !(pyTruthy error) then (true, n * interval)
      else if pyTruthy error then (false, n * interval)
      else waitAux statuses interval timeout hpos (n + 1)
termination_by timeout + 1 - n * interval
decreasing_by
  have hmul : (n + 1) * interval = n * interval + interval := Nat.succ_mul n interval
  omega

/-- `ESGReportProcessor.wait_for_completion` (defaults in the source:
`check_interval = 5`, `timeout = 300`). -/
def wait_for_completion (statuses : Nat → PollInput) (interval timeout : Nat)
    (hpos : 0 < interval) : Bool :=
  (waitAux statuses interval timeout hpos 0).1

/-- Elapsed time (idealised clock) at which `wait_for_completion` returns. -/
def waitElapsed (statuses : Nat → PollInput) (interval timeout : Nat)
    (hpos : 0 < interval) : Nat :=
  (waitAux statuses interval timeout hpos 0).2

/-- The characters Python's `str.isspace` accepts (the set `str.split()`
and `str.strip()` split and trim on). -/
def pyIsSpace (c : Char) : Bool :=
  c = ' ' || c = '\t' || c = '\n' || c = '\r' || c = '\x0b' || c = '\x0c' ||
  c = '\x1c' || c = '\x1d' || c = '\x1e' || c = '\x1f' || c = '\u0085' ||
  c = '\u00a0' || c = '\u1680' ||
  c = '\u2000' || c = '\u2001' || c = '\u2002' || c = '\u2003' || c = '\u2004' ||
  c = '\u2005' || c = '\u2006' || c = '\u2007' || c = '\u2008' || c = '\u2009' ||
  c = '\u200a' || c = '\u2028' || c = '\u2029' || c = '\u202f' || c = '\u205f' ||
  c = '\u3000'

/-- Worker for `pySplit`: `cur` holds the characters of the current word in
reverse. -/
def pySplitGo : List Char → List Char → List String
  | [], cur => if cur.isEmpty then [] else [String.mk cur.reverse]
  | c :: cs, cur =>
    if pyIsSpace c then
      if cur.isEmpty then pySplitGo cs [] else String.mk cur.reverse :: pySplitGo cs []
    else pySplitGo cs (c :: cur)

/-- Python `s.split()` (no separator): split on runs of whitespace,
dropping empty pieces. -/
def pySplit (s : String) : List String :=
  pySplitGo s.toList []

/-- Python `s.strip()`: drop leading and trailing whitespace. -/
def pyStrip (s : String) : String :=
  String.mk (((s.toList.dropWhile pyIsSpace).reverse.dropWhile pyIsSpace).reverse)

/-- Python `s.replace(a, b)` for single characters `a`, `b`. -/
def pyReplaceChar (s : String) (a b : Char) : String :=
  String.mk (s.toList.map (fun c => if c = a then b else c))

/-- `ESGParser.clean_text`: collapse whitespace runs to single spaces
(`' '.join(text.split())`), replace U+2028/U+2029 with spaces, and strip. -/
def clean_text (text : String) : String :=
  pyStrip (pyReplaceChar (pyReplaceChar (String.intercalate " " (pySplit text)) '\u2028' ' ') '\u2029' ' ')

/-- Python `s.find(sub)`: index of the first occurrence, `-1` if absent. -/
def pyFind (s sub : String) : Int :=
  match pyFindAux sub.toList s.toList 0 with
  | some i => (i : Int)
  | none => -1

/-- Python `s[i:]` with a possibly negative start index (negative indices
count from the end, clamped at zero). -/
def pySliceFrom (s : String) (i : Int) : String :=
  let n : Int := (s.toList.length : Int)
  let start : Nat := (if i < 0 then max (n + i) 0 else min i n).toNat
  String.mk (s.toList.drop start)

/-- Outcome of one language-model chat-completion request: either the call
raised an exception, or it returned a message whose content is `content`.
The request itself is an opaque external effect, so it enters the
embedding as an input. -/
inductive CallResult where
  | exc (msg : String)
  | ok (content : String)

/-- The four fields the source requires of every extracted record. -/
def requiredKeys : List String := ["chapter", "source", "item", "value"]

/-- Python `all(k in item for k in ks)`: short-circuiting conjunction of
membership tests, propagating the TypeError a non-container raises. -/
def pyAllContains : List String → JsonVal → Except String Bool
  | [], _ => .ok true
  | k :: ks, item => do
    let b ← pyContains k item
    if b then pyAllContains ks item else pure false

/-- The validation loop shared by `analyze_with_gpt4` and
`integrate_results`: keep the items that pass
`all(k in item for k in ['chapter', 'source', 'item', 'value'])`, skip
(and log) the rest; a TypeError raised by `in` aborts the whole loop. -/
def collectValidated : List JsonVal → Except String (List JsonVal)
  | [] => .ok []
  | it :: rest => do
    let b ← pyAllContains requiredKeys it
    let tail ← collectValidated rest
    pure (if b then it :: tail else tail)

/-- Python `v.get(k, dflt)`: dict lookup with default, AttributeError when
`v` is not a dict. -/
def pyDictGet (v : JsonVal) (k : String) (dflt : JsonVal) : Except String JsonVal :=
  match v with
  | .obj kvs => .ok (dictGetD kvs k dflt)
  | _ => .error "AttributeError: object has no attribute get"

/-- From a decoded model response: `result.get('items', [])`, iterate it,
and keep the validated items. -/
def extractValidated (result : JsonVal) : Except String (List JsonVal) := do
  let items ← pyDictGet result "items" (.arr [])
  let xs ← pyIter items
  collectValidated xs

/-- `ESGParser.analyze_with_gpt4`.  `loads` models `json.loads` on the
model's response content; `chat` models the chat-completion request built
from the page text and page number (the prompt strings the source builds
do not affect the result beyond determining the response, which the
oracle already captures).  Every exception path of the source's `try`
block ends in `return []`. -/
def analyze_with_gpt4 (loads : String → Except String JsonVal)
    (chat : String → JsonVal → CallResult) (text : String) (page_num : JsonVal) :
    List JsonVal :=
  match chat text page_num with
  | .exc _ => []
  | .ok content =>
    match loads content with
    | .error _ => []
    | .ok result =>
      match extractValidated result with
      | .error _ => []
      | .ok validated_items => validated_items

/-- The response preprocessing of `integrate_results`:
`content.strip()`, then, unless it already starts with a brace, cut away
everything before the first `\x7b` (when there is no brace at all,
`content.find` returns `-1` and Python's slice keeps just the last
character). -/
def integratePre (content0 : String) : String :=
  let content1 := pyStrip content0
  if leadsWith ['\x7b'] content1.toList then content1
  else pySliceFrom content1 (pyFind content1 "\x7b")

/-- `ESGParser.integrate_results`.  `ichat` models building the
consolidation request from the accumulated record list and issuing it
(note: the source builds the user message with `str.format` on a template
whose literal JSON braces are not escaped, so on the real interpreter
this step always raises and lands in the generic `except` branch — the
embedding nevertheless models both branches).  Every exception path of
the source ends in `return all_results`. -/
def integrate_results (loads : String → Except String JsonVal)
    (ichat : List JsonVal → CallResult) (all_results : List JsonVal) :
    List JsonVal :=
  match ichat all_results with
  | .exc _ => all_results
  | .ok content0 =>
    match loads (integratePre content0) with
    | .error _ => all_results
    | .ok result =>
      match extractValidated result with
      | .error _ => all_results
      | .ok validated_items => validated_items

/-- The inner loop of `ESGParser.process_content` over one page's items:
for items with `item['type'] == 'text'`, clean `item['value']` and keep
the non-empty results.  A missing `'type'` key raises KeyError; a
non-string `'value'` raises AttributeError (`.split` on a non-string);
either aborts the whole run. -/
def pageTextItems : List JsonVal → Except String (List String)
  | [] => .ok []
  | item :: rest => do
    let ty ← pySubscript item "type"
    match ty with
    | .str s =>
      if s = "text" then do
        let v ← pySubscript item "value"
        match v with
        | .str raw => do
          let t := clean_text raw
          let tail ← pageTextItems rest
          .ok (if t = "" then tail else t :: tail)
        | _ => .error "AttributeError: object has no attribute split"
      else pageTextItems rest
    | _ => pageTextItems rest

/-- The per-page work of `ESGParser.process_content`, before the model
calls: for each page, `page['page']`, then, when `'items' in page`, the
cleaned non-empty text segments joined with newlines.  Pages without
`'items'` or whose text list ends up empty produce no pair. -/
def pageBlocks : List JsonVal → Except String (List (JsonVal × String))
  | [] => .ok []
  | page :: rest => do
    let page_num ← pySubscript page "page"
    let hasItems ← pyContains "items" page
    if hasItems then do
      let itemsV ← pySubscript page "items"
      let items ← pyIter itemsV
      let texts ← pageTextItems items
      let tail ← pageBlocks rest
      if texts.isEmpty then .ok tail
      else .ok ((page_num, String.intercalate "\n" texts) :: tail)
    else do
      let tail ← pageBlocks rest
      .ok tail

/-- `ESGParser.process_content`: walk `result['pages']`, feed each page's
text block to `analyze_with_gpt4`, accumulate the records in page order,
then hand the whole list to `integrate_results`. -/
def process_content (loads : String → Except String JsonVal)
    (chat : String → JsonVal → CallResult) (ichat : List JsonVal → CallResult)
    (result : JsonVal) : Except String (List JsonVal) := do
  let pagesV ← pySubscript result "pages"
  let pages ← pyIter pagesV
  let blocks ← pageBlocks pages
  let all_results := blocks.foldl
    (fun acc pb => acc ++ analyze_with_gpt4 loads chat pb.2 pb.1) []
  pure (integrate_results loads ichat all_results)

/-- Spec-side description of the per-item cleaning (for the refinement
proof of the Content Extractor): the whitespace-normalised values of all
`text`-typed items, empty results included. -/
def specTextValues : List JsonVal → Except String (List String)
  | [] => .ok []
  | item :: rest => do
    let ty ← pySubscript item "type"
    match ty with
    | .str s =>
      if s = "text" then do
        let v ← pySubscript item "value"
        match v with
        | .str raw => do
          let tail ← specTextValues rest
          .ok (clean_text raw :: tail)
        | _ => .error "AttributeError: object has no attribute split"
      else specTextValues rest
    | _ => specTextValues rest

/-- Spec-side description of the Content Extractor, written from the
spec's words: per page one block, the concatenation (newline-joined) of
exactly that page's whitespace-normalised text items, excluding the empty
ones; no pair for a page that has no non-empty text item. -/
def specBlocks : List JsonVal → Except String (List (JsonVal × String))
  | [] => .ok []
  | page :: rest => do
    let pnum ← pySubscript page "page"
    let has ← pyContains "items" page
    if has then do
      let itemsV ← pySubscript page "items"
      let items ← pyIter itemsV
      let vals ← specTextValues items
      let kept := vals.filter (fun t => !(decide (t = "")))
      let tail ← specBlocks rest
      if kept.isEmpty then .ok tail
      else .ok ((pnum, String.intercalate "\n" kept) :: tail)
    else specBlocks rest

/-- An item the parsing service tagged as a table. -/
def isTableItem : JsonVal → Bool
  | .obj kvs => objLookup kvs "type" = some (.str "table")
  | _ => false

/-- Remove the table-typed items from a page's item list (non-list item
containers are left alone). -/
def dropTablesItems : JsonVal → JsonVal
  | .arr xs => .arr (xs.filter (fun it => !isTableItem it))
  | v => v

/-- Remove the table-typed items from a page. -/
def dropTables : JsonVal → JsonVal
  | .obj kvs => .obj (kvs.map (fun kv => if kv.1 = "items" then (kv.1, dropTablesItems kv.2) else kv))
  | v => v

/-- Columns of `pd.DataFrame(data)` for a list of record dicts: the union
of the rows' keys in order of first appearance.  The model covers the
list-of-dicts shape that the pipeline produces; any other row shape is
reported as an error. -/
def columnsOfAux : List String → List JsonVal → Except String (List String)
  | cols, [] => .ok cols
  | cols, .obj kvs :: rest =>
    columnsOfAux (kvs.foldl (fun acc kv => if acc.contains kv.1 then acc else acc ++ [kv.1]) cols) rest
  | _, _ => .error "ValueError: DataFrame rows must be records"

/-- The tabular rows of `pd.DataFrame(data)`: one tuple per record, in
column order, `none` standing for a missing cell (pandas `NaN`). -/
def rowTuples (cols : List String) : List JsonVal → List (List (Option JsonVal))
  | [] => []
  | .obj kvs :: rest => cols.map (objLookup kvs) :: rowTuples cols rest
  | _ :: rest => rowTuples cols rest

/-- Worker for `dropDuplicates`: keep each row's first occurrence (pandas
`drop_duplicates`, `keep='first'`; pandas treats two `NaN` cells as
equal, as `Option.none = Option.none` does here). -/
def dropDupAux {α : Type} [DecidableEq α] : List α → List α → List α
  | _, [] => []
  | seen, x :: xs => if x ∈ seen then dropDupAux seen xs else x :: dropDupAux (x :: seen) xs

/-- `df.drop_duplicates()`: drop exact-duplicate rows, keeping first
occurrences. -/
def dropDuplicates {α : Type} [DecidableEq α] (l : List α) : List α :=
  dropDupAux [] l

/-- The sort keys of `df.sort_values(['chapter', 'source', 'item'])`. -/
def sortKeyCols : List String := ["chapter", "source", "item"]

/-- The cell of `row` in column `k` (given the column list `cols`). -/
def keyCell (cols : List String) (row : List (Option JsonVal)) (k : String) : Option JsonVal :=
  match cols.findIdx? (fun c => c == k) with
  | some i => (row.get? i).getD none
  | none => none

/-- A cell pandas can sort in a string-keyed column: missing (`NaN`),
`None` (treated as missing) or a string. -/
def isStrOrMissing : Option JsonVal → Bool
  | none => true
  | some .null => true
  | some (.str _) => true
  | _ => false

/-- The sort key a cell contributes: `none` for a missing/`None` cell
(pandas puts those last), the string otherwise. -/
def cellKey : Option JsonVal → Option String
  | some (.str s) => some s
  | _ => none

/-- Lexicographic (code-point) order on character lists, Python's string
comparison. -/
def charsLe : List Char → List Char → Bool
  | [], _ => true
  | _ :: _, [] => false
  | a :: as, b :: bs => if a = b then charsLe as bs else decide (a < b)

/-- Python `a <= b` on strings. -/
def pyStrLe (a b : String) : Bool := charsLe a.toList b.toList

/-- Order on cell keys: strings in lexicographic order, missing values
last (`na_position='last'`). -/
def optStrLe : Option String → Option String → Bool
  | some a, some b => pyStrLe a b
  | some _, none => true
  | none, some _ => false
  | none, none => true

/-- The triple of sort keys of a row. -/
def keyTriple (cols : List String) (row : List (Option JsonVal)) : List (Option String) :=
  sortKeyCols.map (fun k => cellKey (keyCell cols row k))

/-- Lexicographic order on equal-length key lists. -/
def lexLe : List (Option String) → List (Option String) → Bool
  | [], _ => true
  | _ :: _, [] => true
  | a :: as, b :: bs => if a = b then lexLe as bs else optStrLe a b

/-- The row order `sort_values(['chapter', 'source', 'item'])` sorts by
(pandas uses a stable lexicographic sort for multi-column keys). -/
def rowLe (cols : List String) (a b : List (Option JsonVal)) : Prop :=
  lexLe (keyTriple cols a) (keyTriple cols b) = true

instance (cols : List String) : DecidableRel (rowLe cols) :=
  fun a b => instDecidableEqBool (lexLe (keyTriple cols a) (keyTriple cols b)) true

/-- The display relabelling of `save_to_excel`. -/
def renameCol (c : String) : String :=
  if c = "chapter" then "章節"
  else if c = "source" then "資料來源"
  else if c = "item" then "項目"
  else if c = "value" then "數據"
  else c

/-- The sheet `save_to_excel` writes: column labels and rows. -/
structure OutDF where
  cols : List String
  rows : List (List (Option JsonVal))
deriving DecidableEq

/-- `ESGParser.save_to_excel`, up to the written sheet: build the
DataFrame, `drop_duplicates()`, `sort_values(['chapter','source','item'])`
(KeyError when a sort column does not exist — in particular for an empty
record list, whose DataFrame has no columns; TypeError when a sort column
holds non-string comparable values, where pandas comparisons raise),
rename the four columns to their display labels. -/
def save_to_excel (data : List JsonVal) : Except String OutDF := do
  let cols ← columnsOfAux [] data
  let rows := rowTuples cols data
  let deduped := dropDuplicates rows
  if sortKeyCols.all (fun k => cols.contains k) then
    if sortKeyCols.all (fun k => deduped.all (fun row => isStrOrMissing (keyCell cols row k))) then
      pure { cols := cols.map renameCol, rows := List.insertionSort (rowLe cols) deduped }
    else .error "TypeError: unorderable values in a sort column"
  else .error "KeyError: chapter"

/-- `ESGParser.process_pdf`: fetch the parse result (`get_result`, an
external call modelled by its outcome), process the content, save the
sheet; every failure propagates (the source re-raises). -/
def process_pdf (loads : String → Except String JsonVal)
    (chat : String → JsonVal → CallResult) (ichat : List JsonVal → CallResult)
    (getResult : Except String JsonVal) : Except String OutDF := do
  let result ← getResult
  let data ← process_content loads chat ichat result
  save_to_excel data

/-- `ESGReportProcessor.process_report`: upload (outcome modelled by
`upload`), wait for completion with the source's defaults
(`check_interval = 5`, `timeout = 300`), then parse and save; `False` on
any failure.  The spreadsheet-writing stage is reached only when the wait
succeeds and `process_pdf` returns without an exception. -/
def process_report (upload : Except String String) (statuses : Nat → PollInput)
    (loads : String → Except String JsonVal) (chat : String → JsonVal → CallResult)
    (ichat : List JsonVal → CallResult) (getResult : Except String JsonVal) : Bool :=
  match upload with
  | .error _ => false
  | .ok _job_id =>
    if wait_for_completion statuses 5 300 (by decide) then
      match process_pdf loads chat ichat getResult with
      | .error _ => false
      | .ok _ => true
    else false

/-- The exit code `main` sets: `sys.exit(0 if success else 1)`. -/
def exitCode (success : Bool) : Nat := if success then 0 else 1

/-- Claim-side reading of "the record contains all four fields": the
record is a JSON object with the four keys present. -/
def hasAllFields : JsonVal → Bool
  | .obj kvs => requiredKeys.all (fun k => (objLookup kvs k).isSome)
  | _ => false

/-- The guarantee the validation loop actually enforces on object
records: when a record is a JSON object, its four keys are present
(non-object records are not constrained). -/
def objComplete : JsonVal → Bool
  | .obj kvs => requiredKeys.all (fun k => (objLookup kvs k).isSome)
  | _ => true

/-!  Theorems.  First general lemmas about the embedded definitions, then
one theorem per claim (with counterexamples and witnesses where due). -/

theorem waitAux_elapsed_le (statuses : Nat → PollInput) (interval timeout : Nat)
    (hpos : 0 < interval) :
    ∀ n : Nat, n * interval ≤ timeout + interval →
      (waitAux statuses interval timeout hpos n).2 ≤ timeout + interval := by
  intro n
  induction n using waitAux.induct statuses interval timeout hpos with
  | case1 n h =>
    intro hn
    rw [waitAux]
    simp only [h, if_true]
    exact hn
  | case2 n h is_done error heq hcond =>
    intro _
    rw [waitAux, if_neg h]
    simp only [heq]
    rw [if_pos hcond]
    show n * interval ≤ timeout + interval
    omega
  | case3 n h is_done error heq hcond1 hcond2 =>
    intro _
    rw [waitAux, if_neg h]
    simp only [heq]
    rw [if_neg hcond1, if_pos hcond2]
    show n * interval ≤ timeout + interval
    omega
  | case4 n h is_done error heq hcond1 hcond2 ih =>
    intro _
    rw [waitAux, if_neg h]
    simp only [heq]
    rw [if_neg hcond1, if_neg hcond2]
    have hmul : (n + 1) * interval = n * interval + interval := Nat.succ_mul n interval
    exact ih (by omega)

/-- Claim C1, counterexample.  A run whose very first status request fails
with a transport error ("Connection refused") while the vendor would
report the job completed from the next poll on: the claim predicts the
poller retries and eventually succeeds, but `wait_for_completion` returns
failure immediately, because `check_job_status` returns
`(False, str(e))` and the `elif error:` branch of the loop treats the
non-empty message as fatal. -/
theorem C1_counterexample :
    wait_for_completion
      (fun n => if n = 0 then PollInput.transportError "Connection refused"
        else PollInput.response [("status", JsonVal.str "completed")])
      5 300 (by decide) = false := by
  simp [wait_for_completion, waitAux, check_job_status, pyTruthy]

/-- Claim C1, amended.  A transport error during a status check whose
`str(e)` is non-empty (every practical `requests` exception) makes
`wait_for_completion` return failure at that same poll instead of
retrying; here stated for an error at the first poll. -/
theorem C1_transport_error_fails_wait
    (statuses : Nat → PollInput) (interval timeout : Nat) (hpos : 0 < interval)
    (msg : String) (hmsg : msg ≠ "")
    (h0 : statuses 0 = PollInput.transportError msg) :
    wait_for_completion statuses interval timeout hpos = false := by
  rw [wait_for_completion, waitAux]
  simp [h0, check_job_status, pyTruthy, hmsg]

/-- Witness for C1's amended theorem at a concrete run. -/
theorem C1_transport_error_fails_wait_witness :
    wait_for_completion (fun _ => PollInput.transportError "boom") 5 300 (by decide) = false :=
  C1_transport_error_fails_wait _ 5 300 (by decide) "boom" (by decide) rfl

/-- Claim C2, counterexample.  With poll interval 5 and timeout 10 and a
vendor that always reports the job as still in progress, the poller
terminates only at elapsed time 15 (idealised clock): the elapsed-time
guard `time.time() - start_time > timeout` is strict and is checked
before the sleep, so the loop polls at 10 (not yet over the budget) and
sleeps once more, exceeding the claimed `timeout`-second bound. -/
theorem C2_counterexample :
    waitAux (fun _ => PollInput.response [("status", JsonVal.str "PENDING")]) 5 10
      (by decide) 0 = (false, 15) ∧ ¬((15 : Nat) ≤ 10) := by
  constructor
  · simp [waitAux, check_job_status, pyTruthy, objLookup]
  · decide

/-- Claim C2, amended.  For every job, every poll interval > 0 and every
timeout, `wait_for_completion` terminates (the recursion is well-founded,
so the function is total), and under the idealised clock it returns at an
elapsed time of at most `timeout + interval` seconds — one interval more
than the claimed bound — whatever the status sequence reports. -/
theorem C2_wait_terminates_within_timeout_plus_interval
    (statuses : Nat → PollInput) (interval timeout : Nat) (hpos : 0 < interval) :
    waitElapsed statuses interval timeout hpos ≤ timeout + interval :=
  waitAux_elapsed_le statuses interval timeout hpos 0 (by omega)

/-- Witness for C2's amended theorem at a concrete run. -/
theorem C2_wait_terminates_witness :
    waitElapsed (fun _ => PollInput.response [("status", JsonVal.str "PENDING")]) 5 10
      (by decide) ≤ 15 :=
  C2_wait_terminates_within_timeout_plus_interval _ 5 10 (by decide)

/-- Claim C3 (code bug).  When the status response is
`{"status": "failed", "error": "corrupt file"}` the pipeline behaves as
claimed: the wait fails, `process_report` returns failure without
reaching the parse/write stage (whatever the later oracles would do), and
the exit code is 1.  But when the vendor supplies an *empty* error
message, `{"status": "failed", "error": ""}`, `check_job_status` returns
`(True, "")`, the empty string is falsy, so `if is_done and not error:`
makes `wait_for_completion` report *success* for the failed job —
contradicting the claim (and the function's own documented meaning,
"whether the job completed successfully"). -/
theorem C3_code_bug :
    (wait_for_completion
        (fun _ => PollInput.response [("status", JsonVal.str "failed"), ("error", JsonVal.str "corrupt file")])
        5 300 (by decide) = false) ∧
    (∀ (loads : String → Except String JsonVal) (chat : String → JsonVal → CallResult)
        (ichat : List JsonVal → CallResult) (getResult : Except String JsonVal),
      process_report (Except.ok "job-1")
        (fun _ => PollInput.response [("status", JsonVal.str "failed"), ("error", JsonVal.str "corrupt file")])
        loads chat ichat getResult = false) ∧
    exitCode false = 1 ∧
    (wait_for_completion
        (fun _ => PollInput.response [("status", JsonVal.str "failed"), ("error", JsonVal.str "")])
        5 300 (by decide) = true) := by
  refine ⟨?_, ?_, rfl, ?_⟩
  · simp [wait_for_completion, waitAux, check_job_status, pyTruthy, objLookup, dictGetD]
  · intro loads chat ichat getResult
    simp [process_report, wait_for_completion, waitAux, check_job_status, pyTruthy, objLookup, dictGetD]
  · simp [wait_for_completion, waitAux, check_job_status, pyTruthy, objLookup, dictGetD]

/-- Claim C4.  Whenever the consolidation request raises, or the model's
response fails to decode as JSON, `integrate_results` returns exactly the
original accumulated list, unmodified and in order. -/
theorem C4_integrate_fallback_returns_input
    (loads : String → Except String JsonVal) (ichat : List JsonVal → CallResult)
    (all_results : List JsonVal) :
    (∀ m, ichat all_results = CallResult.exc m →
      integrate_results loads ichat all_results = all_results) ∧
    (∀ c e, ichat all_results = CallResult.ok c →
      loads (integratePre c) = Except.error e →
      integrate_results loads ichat all_results = all_results) := by
  constructor
  · intro m hm
    simp [integrate_results, hm]
  · intro c e hc he
    simp [integrate_results, hc, he]

/-- Witness for C4 at concrete runs: an exception during the call (the
branch the real interpreter always takes, because the prompt template's
literal braces make `str.format` raise), and a response that is not valid
JSON. -/
theorem C4_integrate_fallback_witness :
    integrate_results (fun _ => Except.error "Expecting value")
      (fun _ => CallResult.exc "ValueError: unexpected brace in field name")
      [JsonVal.str "r1", JsonVal.str "r2"] = [JsonVal.str "r1", JsonVal.str "r2"] ∧
    integrate_results (fun _ => Except.error "Expecting value")
      (fun _ => CallResult.ok "not json") [JsonVal.str "r1"] = [JsonVal.str "r1"] :=
  ⟨(C4_integrate_fallback_returns_input _ _ _).1 _ rfl,
   (C4_integrate_fallback_returns_input _ _ _).2 _ "Expecting value" rfl rfl⟩

/-- Claim C5.  Whenever the per-page model call raises, or its response
content fails to decode as JSON, `analyze_with_gpt4` returns the empty
list (the function is total, so no exception escapes). -/
theorem C5_analyze_failure_returns_empty
    (loads : String → Except String JsonVal) (chat : String → JsonVal → CallResult)
    (text : String) (page_num : JsonVal) :
    (∀ m, chat text page_num = CallResult.exc m →
      analyze_with_gpt4 loads chat text page_num = []) ∧
    (∀ c e, chat text page_num = CallResult.ok c →
      loads c = Except.error e →
      analyze_with_gpt4 loads chat text page_num = []) := by
  constructor
  · intro m hm
    simp [analyze_with_gpt4, hm]
  · intro c e hc he
    simp [analyze_with_gpt4, hc, he]

/-- Witness for C5 at concrete runs: a raising call, and a non-JSON
response. -/
theorem C5_analyze_failure_witness :
    analyze_with_gpt4 (fun _ => Except.error "Expecting value")
      (fun _ _ => CallResult.exc "APIError") "page text" (JsonVal.num 3) = [] ∧
    analyze_with_gpt4 (fun _ => Except.error "Expecting value")
      (fun _ _ => CallResult.ok "here is some prose, not JSON") "page text" (JsonVal.num 3) = [] :=
  ⟨(C5_analyze_failure_returns_empty _ _ _ _).1 _ rfl,
   (C5_analyze_failure_returns_empty _ _ _ _).2 _ "Expecting value" rfl rfl⟩

theorem objLookup_isSome_eq_any (kvs : List (String × JsonVal)) (k : String) :
    (objLookup kvs k).isSome = kvs.any (fun kv => kv.1 == k) := by
  induction kvs with
  | nil => rfl
  | cons kv rest ih =>
    by_cases h : kv.1 == k
    · simp [objLookup, List.find?, h]
    · simp only [objLookup, List.find?] at ih ⊢
      rw [Bool.not_eq_true] at h
      simp [h, ih]

theorem Except_ok_bind {α β : Type} (a : α) (f : α → Except String β) :
    (Except.ok a >>= f) = f a := rfl

theorem Except_error_bind {α β : Type} (e : String) (f : α → Except String β) :
    ((Except.error e : Except String α) >>= f) = Except.error e := rfl

theorem Except_pure_eq {α : Type} (a : α) : (pure a : Except String α) = Except.ok a := rfl

theorem pyAllContains_obj (ks : List String) (kvs : List (String × JsonVal)) :
    pyAllContains ks (JsonVal.obj kvs) =
      Except.ok (ks.all (fun k => kvs.any (fun kv => kv.1 == k))) := by
  induction ks with
  | nil => rfl
  | cons k rest ih =>
    by_cases h : kvs.any (fun kv => kv.1 == k)
    · simp [pyAllContains, pyContains, h, ih, Except_ok_bind]
    · rw [Bool.not_eq_true] at h
      simp [pyAllContains, pyContains, h, Except_ok_bind, Except_pure_eq]

theorem objComplete_of_validated (v : JsonVal)
    (h : pyAllContains requiredKeys v = Except.ok true) : objComplete v = true := by
  cases v with
  | obj kvs =>
    rw [pyAllContains_obj] at h
    have hall : requiredKeys.all (fun k => kvs.any (fun kv => kv.1 == k)) = true :=
      Except.ok.inj h
    simp only [objComplete]
    rw [List.all_eq_true]
    intro k hk
    rw [objLookup_isSome_eq_any]
    exact List.all_eq_true.mp hall k hk
  | null => rfl
  | bool b => rfl
  | num n => rfl
  | str s => rfl
  | arr xs => rfl

theorem collectValidated_ok_mem :
    ∀ (xs l : List JsonVal), collectValidated xs = Except.ok l →
      ∀ v ∈ l, pyAllContains requiredKeys v = Except.ok true := by
  intro xs
  induction xs with
  | nil =>
    intro l hl v hv
    have h2 : Except.ok ([] : List JsonVal) = Except.ok l := hl
    cases h2
    cases hv
  | cons it rest ih =>
    intro l hl v hv
    rw [collectValidated] at hl
    cases hb : pyAllContains requiredKeys it with
    | error e =>
      rw [hb, Except_error_bind] at hl
      exact Except.noConfusion hl
    | ok b =>
      rw [hb, Except_ok_bind] at hl
      cases ht : collectValidated rest with
      | error e =>
        rw [ht, Except_error_bind] at hl
        exact Except.noConfusion hl
      | ok tail =>
        rw [ht, Except_ok_bind, Except_pure_eq] at hl
        have hl2 := Except.ok.inj hl
        subst hl2
        cases b with
        | true =>
          rw [if_pos rfl] at hv
          cases hv with
          | head => exact hb
          | tail _ hv2 => exact ih tail ht v hv2
        | false =>
          rw [if_neg (by simp)] at hv
          exact ih tail ht v hv

theorem collectValidated_all_objComplete (xs l : List JsonVal)
    (h : collectValidated xs = Except.ok l) : l.all objComplete = true := by
  rw [List.all_eq_true]
  intro v hv
  exact objComplete_of_validated v (collectValidated_ok_mem xs l h v hv)

theorem extractValidated_all_objComplete (r : JsonVal) (l : List JsonVal)
    (h : extractValidated r = Except.ok l) : l.all objComplete = true := by
  rw [extractValidated] at h
  cases h1 : pyDictGet r "items" (JsonVal.arr []) with
  | error e =>
    rw [h1, Except_error_bind] at h
    exact Except.noConfusion h
  | ok items =>
    rw [h1, Except_ok_bind] at h
    cases h2 : pyIter items with
    | error e =>
      rw [h2, Except_error_bind] at h
      exact Except.noConfusion h
    | ok xs =>
      rw [h2, Except_ok_bind] at h
      exact collectValidated_all_objComplete xs l h

theorem analyze_all_objComplete (loads : String → Except String JsonVal)
    (chat : String → JsonVal → CallResult) (text : String) (page_num : JsonVal) :
    (analyze_with_gpt4 loads chat text page_num).all objComplete = true := by
  rw [analyze_with_gpt4]
  split
  · rfl
  · split
    · rfl
    · split
      · rfl
      · rename_i validated_items heq
        exact extractValidated_all_objComplete _ validated_items heq

theorem integrate_all_objComplete (loads : String → Except String JsonVal)
    (ichat : List JsonVal → CallResult) (rs : List JsonVal)
    (hin : rs.all objComplete = true) :
    (integrate_results loads ichat rs).all objComplete = true := by
  rw [integrate_results]
  split
  · exact hin
  · split
    · exact hin
    · split
      · exact hin
      · rename_i validated_items heq
        exact extractValidated_all_objComplete _ validated_items heq

theorem foldl_analyze_all_objComplete (loads : String → Except String JsonVal)
    (chat : String → JsonVal → CallResult) :
    ∀ (blocks : List (JsonVal × String)) (acc : List JsonVal),
      acc.all objComplete = true →
      (blocks.foldl (fun acc pb => acc ++ analyze_with_gpt4 loads chat pb.2 pb.1) acc).all
        objComplete = true := by
  intro blocks
  induction blocks with
  | nil => intro acc hacc; exact hacc
  | cons pb rest ih =>
    intro acc hacc
    rw [List.foldl_cons]
    apply ih
    simp only [List.all_append, Bool.and_eq_true]
    exact ⟨hacc, analyze_all_objComplete loads chat pb.2 pb.1⟩

theorem process_content_all_objComplete (loads : String → Except String JsonVal)
    (chat : String → JsonVal → CallResult) (ichat : List JsonVal → CallResult)
    (result : JsonVal) (l : List JsonVal)
    (h : process_content loads chat ichat result = Except.ok l) :
    l.all objComplete = true := by
  rw [process_content] at h
  cases h1 : pySubscript result "pages" with
  | error e =>
    rw [h1, Except_error_bind] at h
    exact Except.noConfusion h
  | ok pagesV =>
    rw [h1, Except_ok_bind] at h
    cases h2 : pyIter pagesV with
    | error e =>
      rw [h2, Except_error_bind] at h
      exact Except.noConfusion h
    | ok pages =>
      rw [h2, Except_ok_bind] at h
      cases h3 : pageBlocks pages with
      | error e =>
        rw [h3, Except_error_bind] at h
        exact Except.noConfusion h
      | ok blocks =>
        rw [h3, Except_ok_bind, Except_pure_eq] at h
        have hl := Except.ok.inj h
        subst hl
        exact integrate_all_objComplete loads ichat _
          (foldl_analyze_all_objComplete loads chat blocks [] rfl)

/-- Claim C6, counterexample.  The validation step checks membership with
Python's `in`, which on a *string* element is a substring test: when the
model's response is `{"items": ["chapter,source,item,value"]}`, the bare
string passes all four checks and is returned by `analyze_with_gpt4`,
yet it is not a record with four fields at all. -/
theorem C6_counterexample :
    analyze_with_gpt4
      (fun s => if s = "RESP"
        then Except.ok (JsonVal.obj [("items", JsonVal.arr [JsonVal.str "chapter,source,item,value"])])
        else Except.error "Expecting value")
      (fun _ _ => CallResult.ok "RESP") "some page text" (JsonVal.num 1)
      = [JsonVal.str "chapter,source,item,value"] ∧
    hasAllFields (JsonVal.str "chapter,source,item,value") = false := by
  exact ⟨by decide, by decide⟩

/-- Claim C6, amended.  Every record *that is a JSON object* in the list
returned by `analyze_with_gpt4` contains all four fields, and every
object record missing a field is discarded; the same holds for
`integrate_results` provided its input list satisfies the same invariant
(its fallback branches return the input).  Non-object elements can pass
the membership check (substring/membership semantics of `in`) and be
returned, which is what the counterexample exhibits. -/
theorem C6_validated_objects_have_all_fields
    (loads : String → Except String JsonVal) (chat : String → JsonVal → CallResult)
    (ichat : List JsonVal → CallResult) (text : String) (page_num : JsonVal)
    (rs : List JsonVal) :
    ((analyze_with_gpt4 loads chat text page_num).all objComplete = true) ∧
    (rs.all objComplete = true →
      (integrate_results loads ichat rs).all objComplete = true) :=
  ⟨analyze_all_objComplete loads chat text page_num,
   integrate_all_objComplete loads ichat rs⟩

/-- Witness for C6's amended theorem at a concrete run (the integration
hypothesis discharged on a concrete validated list). -/
theorem C6_validated_objects_witness :
    ((analyze_with_gpt4
        (fun _ => Except.ok (JsonVal.obj [("items",
          JsonVal.arr [JsonVal.obj [("chapter", JsonVal.str "導言"), ("source", JsonVal.str "內文"),
            ("item", JsonVal.str "x"), ("value", JsonVal.null)],
            JsonVal.obj [("chapter", JsonVal.str "導言")]])]))
        (fun _ _ => CallResult.ok "RESP") "t" (JsonVal.num 1)).all objComplete = true) ∧
    ((integrate_results (fun _ => Except.error "boom")
        (fun _ => CallResult.exc "format error")
        [JsonVal.obj [("chapter", JsonVal.str "導言"), ("source", JsonVal.str "內文"),
          ("item", JsonVal.str "x"), ("value", JsonVal.null)]]).all objComplete = true) :=
  ⟨(C6_validated_objects_have_all_fields _ _
      (fun _ => CallResult.exc "format error") _ _ []).1,
   (C6_validated_objects_have_all_fields (fun _ => Except.error "boom")
      (fun _ _ => CallResult.ok "RESP") _ "t" (JsonVal.num 1) _).2 (by decide)⟩

/-- Claim C7, counterexample.  A full `process_content` run in which the
model returns a record whose `chapter` is `null` and whose `value` is the
empty string: the record passes validation (only key presence is
checked), integration falls back to the input (as it always does on the
real interpreter, and as this run's consolidation exception makes
explicit), and the record — `value = ""`, `chapter = null` — is exactly
what gets passed to the Spreadsheet Writer, contradicting the claim. -/
theorem C7_counterexample :
    process_content
      (fun s => if s = "RESP"
        then Except.ok (JsonVal.obj [("items", JsonVal.arr [JsonVal.obj
          [("chapter", JsonVal.null), ("source", JsonVal.str "內文"),
           ("item", JsonVal.str "用水量"), ("value", JsonVal.str "")]])])
        else Except.error "Expecting value")
      (fun _ _ => CallResult.ok "RESP")
      (fun _ => CallResult.exc "ValueError: unexpected brace in field name")
      (JsonVal.obj [("pages", JsonVal.arr [JsonVal.obj [("page", JsonVal.num 1),
        ("items", JsonVal.arr [JsonVal.obj [("type", JsonVal.str "text"),
          ("value", JsonVal.str "some page text")]])]])])
      = Except.ok [JsonVal.obj
          [("chapter", JsonVal.null), ("source", JsonVal.str "內文"),
           ("item", JsonVal.str "用水量"), ("value", JsonVal.str "")]] ∧
    objLookup [("chapter", JsonVal.null), ("source", JsonVal.str "內文"),
        ("item", JsonVal.str "用水量"), ("value", JsonVal.str "")] "value"
      = some (JsonVal.str "") ∧
    objLookup [("chapter", JsonVal.null), ("source", JsonVal.str "內文"),
        ("item", JsonVal.str "用水量"), ("value", JsonVal.str "")] "chapter"
      = some JsonVal.null := by
  exact ⟨by decide, by decide, by decide⟩

/-- Claim C7, amended.  The only guarantee the code gives about the
record list passed to the Spreadsheet Writer (the output of
`process_content`) is key presence: every record that is a JSON object
carries all four keys.  Nothing constrains the values: `value` may be the
empty string and `chapter`/`source`/`item` may be `null`, since
validation never inspects them (the prompt asks the model for `null`
instead of `""`, but the code does not enforce it). -/
theorem C7_writer_input_objects_have_keys
    (loads : String → Except String JsonVal) (chat : String → JsonVal → CallResult)
    (ichat : List JsonVal → CallResult) (result : JsonVal) (l : List JsonVal)
    (h : process_content loads chat ichat result = Except.ok l) :
    l.all objComplete = true :=
  process_content_all_objComplete loads chat ichat result l h

/-- Witness for C7's amended theorem on the counterexample's run. -/
theorem C7_writer_input_witness :
    ([JsonVal.obj [("chapter", JsonVal.null), ("source", JsonVal.str "內文"),
        ("item", JsonVal.str "用水量"), ("value", JsonVal.str "")]].all objComplete = true) :=
  C7_writer_input_objects_have_keys
    (fun s => if s = "RESP"
      then Except.ok (JsonVal.obj [("items", JsonVal.arr [JsonVal.obj
        [("chapter", JsonVal.null), ("source", JsonVal.str "內文"),
         ("item", JsonVal.str "用水量"), ("value", JsonVal.str "")]])])
      else Except.error "Expecting value")
    (fun _ _ => CallResult.ok "RESP")
    (fun _ => CallResult.exc "ValueError: unexpected brace in field name")
    (JsonVal.obj [("pages", JsonVal.arr [JsonVal.obj [("page", JsonVal.num 1),
      ("items", JsonVal.arr [JsonVal.obj [("type", JsonVal.str "text"),
        ("value", JsonVal.str "some page text")]])]])])
    _ (by decide)

theorem dropDupAux_length_le {α : Type} [DecidableEq α] :
    ∀ (seen l : List α), (dropDupAux seen l).length ≤ l.length := by
  intro seen l
  induction l generalizing seen with
  | nil => exact Nat.le_refl 0
  | cons x xs ih =>
    rw [dropDupAux]
    by_cases h : x ∈ seen
    · rw [if_pos h]
      exact Nat.le_succ_of_le (ih seen)
    · rw [if_neg h]
      exact Nat.succ_le_succ (ih (x :: seen))

theorem mem_dropDupAux {α : Type} [DecidableEq α] :
    ∀ (seen l : List α) (x : α), x ∈ dropDupAux seen l → x ∉ seen := by
  intro seen l
  induction l generalizing seen with
  | nil => intro x hx; cases hx
  | cons y ys ih =>
    intro x hx
    rw [dropDupAux] at hx
    by_cases h : y ∈ seen
    · rw [if_pos h] at hx
      exact ih seen x hx
    · rw [if_neg h] at hx
      cases hx with
      | head => exact h
      | tail _ hx2 =>
        have := ih (y :: seen) x hx2
        intro hc
        exact this (List.mem_cons_of_mem y hc)

theorem dropDupAux_nodup {α : Type} [DecidableEq α] :
    ∀ (seen l : List α), (dropDupAux seen l).Nodup := by
  intro seen l
  induction l generalizing seen with
  | nil => exact List.nodup_nil
  | cons y ys ih =>
    rw [dropDupAux]
    by_cases h : y ∈ seen
    · rw [if_pos h]
      exact ih seen
    · rw [if_neg h]
      rw [List.nodup_cons]
      refine ⟨fun hc => ?_, ih (y :: seen)⟩
      exact mem_dropDupAux (y :: seen) ys y hc (List.mem_cons_self y seen)

theorem dropDupAux_eq_self {α : Type} [DecidableEq α] :
    ∀ (seen l : List α), l.Nodup → (∀ x ∈ l, x ∉ seen) → dropDupAux seen l = l := by
  intro seen l
  induction l generalizing seen with
  | nil => intro _ _; rfl
  | cons y ys ih =>
    intro hnd hdisj
    rw [dropDupAux, if_neg (hdisj y (List.mem_cons_self y ys))]
    rw [List.nodup_cons] at hnd
    congr 1
    apply ih (y :: seen) hnd.2
    intro x hx
    rw [List.mem_cons]
    rintro (rfl | hc)
    · exact hnd.1 hx
    · exact hdisj x (List.mem_cons_of_mem y hx) hc

theorem dropDuplicates_length_le {α : Type} [DecidableEq α] (l : List α) :
    (dropDuplicates l).length ≤ l.length :=
  dropDupAux_length_le [] l

theorem dropDuplicates_idem {α : Type} [DecidableEq α] (l : List α) :
    dropDuplicates (dropDuplicates l) = dropDuplicates l := by
  apply dropDupAux_eq_self
  · exact dropDupAux_nodup [] l
  · intro x _ hc
    cases hc

theorem charsLe_total : ∀ as bs : List Char, charsLe as bs = true ∨ charsLe bs as = true := by
  intro as
  induction as with
  | nil => intro bs; left; rfl
  | cons a as ih =>
    intro bs
    cases bs with
    | nil => right; rfl
    | cons b bs =>
      by_cases hab : a = b
      · subst hab
        rw [charsLe, charsLe, if_pos rfl, if_pos rfl]
        exact ih bs
      · rcases lt_trichotomy a b with hlt | heq | hgt
        · left
          rw [charsLe, if_neg hab]
          exact decide_eq_true hlt
        · exact absurd heq hab
        · right
          rw [charsLe, if_neg (fun h => hab h.symm)]
          exact decide_eq_true hgt

theorem charsLe_trans : ∀ as bs cs : List Char,
    charsLe as bs = true → charsLe bs cs = true → charsLe as cs = true := by
  intro as
  induction as with
  | nil => intro bs cs _ _; rfl
  | cons a as ih =>
    intro bs cs h1 h2
    cases bs with
    | nil => rw [charsLe] at h1; exact absurd h1 (by simp)
    | cons b bs =>
      cases cs with
      | nil => rw [charsLe] at h2; exact absurd h2 (by simp)
      | cons c cs =>
        rw [charsLe] at h1 h2 ⊢
        by_cases hab : a = b
        · subst hab
          rw [if_pos rfl] at h1
          by_cases hbc : a = c
          · subst hbc
            rw [if_pos rfl] at h2 ⊢
            exact ih bs cs h1 h2
          · rw [if_neg hbc] at h2 ⊢
            exact h2
        · rw [if_neg hab] at h1
          have hlt1 : a < b := of_decide_eq_true h1
          by_cases hbc : b = c
          · subst hbc
            rw [if_neg hab]
            exact h1
          · rw [if_neg hbc] at h2
            have hlt2 : b < c := of_decide_eq_true h2
            have hac : a < c := lt_trans hlt1 hlt2
            rw [if_neg (ne_of_lt hac)]
            exact decide_eq_true hac

theorem charsLe_antisymm : ∀ as bs : List Char,
    charsLe as bs = true → charsLe bs as = true → as = bs := by
  intro as
  induction as with
  | nil =>
    intro bs _ h2
    cases bs with
    | nil => rfl
    | cons b bs => rw [charsLe] at h2; exact absurd h2 (by simp)
  | cons a as ih =>
    intro bs h1 h2
    cases bs with
    | nil => rw [charsLe] at h1; exact absurd h1 (by simp)
    | cons b bs =>
      rw [charsLe] at h1 h2
      by_cases hab : a = b
      · subst hab
        rw [if_pos rfl] at h1 h2
        rw [ih bs h1 h2]
      · rw [if_neg hab] at h1
        rw [if_neg (fun h => hab h.symm)] at h2
        have hlt1 : a < b := of_decide_eq_true h1
        have hlt2 : b < a := of_decide_eq_true h2
        exact absurd hlt1 (not_lt_of_gt hlt2)

theorem optStrLe_total : ∀ a b : Option String, optStrLe a b = true ∨ optStrLe b a = true := by
  intro a b
  cases a with
  | none => cases b with
    | none => left; rfl
    | some s => right; rfl
  | some s => cases b with
    | none => left; rfl
    | some t => exact charsLe_total s.toList t.toList

theorem optStrLe_trans : ∀ a b c : Option String,
    optStrLe a b = true → optStrLe b c = true → optStrLe a c = true := by
  intro a b c h1 h2
  cases a with
  | none =>
    cases b with
    | none => exact h2
    | some s => exact absurd h1 (by simp [optStrLe])
  | some s =>
    cases c with
    | none => rfl
    | some u =>
      cases b with
      | none => exact absurd h2 (by simp [optStrLe])
      | some t => exact charsLe_trans s.toList t.toList u.toList h1 h2

theorem optStrLe_antisymm : ∀ a b : Option String,
    optStrLe a b = true → optStrLe b a = true → a = b := by
  intro a b h1 h2
  cases a with
  | none =>
    cases b with
    | none => rfl
    | some s => exact absurd h1 (by simp [optStrLe])
  | some s =>
    cases b with
    | none => exact absurd h2 (by simp [optStrLe])
    | some t =>
      have := charsLe_antisymm s.toList t.toList h1 h2
      rw [String.ext this]

theorem lexLe_total : ∀ a b : List (Option String), lexLe a b = true ∨ lexLe b a = true := by
  intro a
  induction a with
  | nil => intro b; left; rfl
  | cons x xs ih =>
    intro b
    cases b with
    | nil => right; rfl
    | cons y ys =>
      by_cases hxy : x = y
      · subst hxy
        rw [lexLe, lexLe, if_pos rfl, if_pos rfl]
        exact ih ys
      · rw [lexLe, lexLe, if_neg hxy, if_neg (fun h => hxy h.symm)]
        exact optStrLe_total x y

theorem lexLe_trans : ∀ a b c : List (Option String),
    a.length = b.length → b.length = c.length →
    lexLe a b = true → lexLe b c = true → lexLe a c = true := by
  intro a
  induction a with
  | nil => intro b c _ _ _ _; rfl
  | cons x xs ih =>
    intro b c hl1 hl2 h1 h2
    cases b with
    | nil => cases hl1
    | cons y ys =>
      cases c with
      | nil => cases hl2
      | cons z zs =>
        simp only [List.length_cons, Nat.add_right_cancel_iff] at hl1 hl2
        rw [lexLe] at h1 h2 ⊢
        by_cases hxy : x = y
        · subst hxy
          rw [if_pos rfl] at h1
          by_cases hyz : x = z
          · subst hyz
            rw [if_pos rfl] at h2 ⊢
            exact ih ys zs hl1 hl2 h1 h2
          · rw [if_neg hyz] at h2 ⊢
            exact h2
        · rw [if_neg hxy] at h1
          by_cases hyz : y = z
          · subst hyz
            rw [if_neg hxy]
            exact h1
          · rw [if_neg hyz] at h2
            by_cases hxz : x = z
            · subst hxz
              exact absurd (optStrLe_antisymm x y h1 h2) hxy
            · rw [if_neg hxz]
              exact optStrLe_trans x y z h1 h2

theorem keyTriple_length (cols : List String) (row : List (Option JsonVal)) :
    (keyTriple cols row).length = 3 := rfl

theorem rowLe_total (cols : List String) :
    ∀ a b : List (Option JsonVal), rowLe cols a b ∨ rowLe cols b a := by
  intro a b
  exact lexLe_total (keyTriple cols a) (keyTriple cols b)

theorem rowLe_trans (cols : List String) :
    ∀ a b c : List (Option JsonVal), rowLe cols a b → rowLe cols b c → rowLe cols a c := by
  intro a b c h1 h2
  exact lexLe_trans (keyTriple cols a) (keyTriple cols b) (keyTriple cols c)
    (by rw [keyTriple_length, keyTriple_length])
    (by rw [keyTriple_length, keyTriple_length]) h1 h2

/-- Claim C8.  For every input record list: the Writer's deduplication
produces at most as many rows as it was given and is idempotent, and
whenever `save_to_excel` succeeds its rows are the deduplicated rows
(a permutation of them) sorted by the (chapter, source, item) key
order. -/
theorem C8_writer_dedup_sort (data : List JsonVal) (cols : List String)
    (hcols : columnsOfAux [] data = Except.ok cols) :
    ((dropDuplicates (rowTuples cols data)).length ≤ (rowTuples cols data).length ∧
      dropDuplicates (dropDuplicates (rowTuples cols data)) =
        dropDuplicates (rowTuples cols data)) ∧
    ∀ out, save_to_excel data = Except.ok out →
      List.Sorted (rowLe cols) out.rows ∧
      out.rows.Perm (dropDuplicates (rowTuples cols data)) := by
  refine ⟨⟨dropDuplicates_length_le _, dropDuplicates_idem _⟩, ?_⟩
  intro out hout
  rw [save_to_excel, hcols, Except_ok_bind] at hout
  split at hout
  · dsimp only at hout
    split at hout
    · rw [Except_pure_eq] at hout
      have h2 := Except.ok.inj hout
      subst h2
      constructor
      · haveI : IsTotal (List (Option JsonVal)) (rowLe cols) := ⟨rowLe_total cols⟩
        haveI : IsTrans (List (Option JsonVal)) (rowLe cols) := ⟨rowLe_trans cols⟩
        exact List.sorted_insertionSort (rowLe cols) _
      · exact List.perm_insertionSort (rowLe cols) _
    · exact Except.noConfusion hout
  · exact Except.noConfusion hout

/-- Witness for C8 at a concrete record list with a duplicate row. -/
theorem C8_writer_dedup_sort_witness :
    (((dropDuplicates (rowTuples ["chapter", "source", "item", "value"]
        [JsonVal.obj [("chapter", JsonVal.str "b"), ("source", JsonVal.str "s"),
          ("item", JsonVal.str "i"), ("value", JsonVal.null)],
         JsonVal.obj [("chapter", JsonVal.str "a"), ("source", JsonVal.str "s"),
          ("item", JsonVal.str "i"), ("value", JsonVal.str "1")],
         JsonVal.obj [("chapter", JsonVal.str "b"), ("source", JsonVal.str "s"),
          ("item", JsonVal.str "i"), ("value", JsonVal.null)]])).length ≤
      (rowTuples ["chapter", "source", "item", "value"]
        [JsonVal.obj [("chapter", JsonVal.str "b"), ("source", JsonVal.str "s"),
          ("item", JsonVal.str "i"), ("value", JsonVal.null)],
         JsonVal.obj [("chapter", JsonVal.str "a"), ("source", JsonVal.str "s"),
          ("item", JsonVal.str "i"), ("value", JsonVal.str "1")],
         JsonVal.obj [("chapter", JsonVal.str "b"), ("source", JsonVal.str "s"),
          ("item", JsonVal.str "i"), ("value", JsonVal.null)]]).length) ∧
    List.Sorted (rowLe ["chapter", "source", "item", "value"])
      [[some (JsonVal.str "a"), some (JsonVal.str "s"), some (JsonVal.str "i"),
        some (JsonVal.str "1")],
       [some (JsonVal.str "b"), some (JsonVal.str "s"), some (JsonVal.str "i"),
        some JsonVal.null]]) := by
  have h := C8_writer_dedup_sort
    [JsonVal.obj [("chapter", JsonVal.str "b"), ("source", JsonVal.str "s"),
      ("item", JsonVal.str "i"), ("value", JsonVal.null)],
     JsonVal.obj [("chapter", JsonVal.str "a"), ("source", JsonVal.str "s"),
      ("item", JsonVal.str "i"), ("value", JsonVal.str "1")],
     JsonVal.obj [("chapter", JsonVal.str "b"), ("source", JsonVal.str "s"),
      ("item", JsonVal.str "i"), ("value", JsonVal.null)]]
    ["chapter", "source", "item", "value"] (by decide)
  exact ⟨h.1.1,
    (h.2 { cols := ["章節", "資料來源", "項目", "數據"],
           rows := [[some (JsonVal.str "a"), some (JsonVal.str "s"), some (JsonVal.str "i"),
              some (JsonVal.str "1")],
             [some (JsonVal.str "b"), some (JsonVal.str "s"), some (JsonVal.str "i"),
              some JsonVal.null]] } (by decide)).1⟩

theorem pageTextItems_spec : ∀ items : List JsonVal,
    pageTextItems items =
      Except.map (fun l => l.filter (fun t => !(decide (t = ""))))
        (specTextValues items) := by
  intro items
  induction items with
  | nil => rfl
  | cons item rest ih =>
    rw [pageTextItems, specTextValues]
    cases h1 : pySubscript item "type" with
    | error e => rw [Except_error_bind, Except_error_bind]; rfl
    | ok ty =>
      rw [Except_ok_bind, Except_ok_bind]
      cases ty with
      | str s =>
        dsimp only
        by_cases hs : s = "text"
        · rw [if_pos hs, if_pos hs]
          cases h2 : pySubscript item "value" with
          | error e => rw [Except_error_bind, Except_error_bind]; rfl
          | ok v =>
            rw [Except_ok_bind, Except_ok_bind]
            cases v with
            | str raw =>
              rw [ih]
              cases h3 : specTextValues rest with
              | error e => rfl
              | ok tl =>
                show Except.ok _ = Except.ok _
                congr 1
                show _ = List.filter (fun t => !decide (t = "")) (clean_text raw :: tl)
                rw [List.filter_cons]
                by_cases hc : clean_text raw = ""
                · simp [hc]
                · simp [hc]
            | null => rfl
            | bool b => rfl
            | num n => rfl
            | arr xs => rfl
            | obj kvs => rfl
        · rw [if_neg hs, if_neg hs]
          exact ih
      | null => exact ih
      | bool b => exact ih
      | num n => exact ih
      | arr xs => exact ih
      | obj kvs => exact ih

theorem pageBlocks_spec : ∀ pages : List JsonVal, pageBlocks pages = specBlocks pages := by
  intro pages
  induction pages with
  | nil => rfl
  | cons page rest ih =>
    rw [pageBlocks, specBlocks]
    cases h1 : pySubscript page "page" with
    | error e => rw [Except_error_bind, Except_error_bind]
    | ok pnum =>
      rw [Except_ok_bind, Except_ok_bind]
      cases h2 : pyContains "items" page with
      | error e => rw [Except_error_bind, Except_error_bind]
      | ok b =>
        rw [Except_ok_bind, Except_ok_bind]
        cases b with
        | false =>
          rw [if_neg (by simp), if_neg (by simp)]
          have hbp : (do let tail ← pageBlocks rest; Except.ok tail) = pageBlocks rest := by
            cases pageBlocks rest <;> rfl
          rw [hbp, ih]
        | true =>
          rw [if_pos rfl, if_pos rfl]
          cases h3 : pySubscript page "items" with
          | error e => rw [Except_error_bind, Except_error_bind]
          | ok itemsV =>
            rw [Except_ok_bind, Except_ok_bind]
            cases h4 : pyIter itemsV with
            | error e => rw [Except_error_bind, Except_error_bind]
            | ok items =>
              rw [Except_ok_bind, Except_ok_bind, pageTextItems_spec items]
              cases h5 : specTextValues items with
              | error e => rfl
              | ok vals =>
                show (do
                    let texts ← Except.ok (vals.filter (fun t => !(decide (t = ""))))
                    let tail ← pageBlocks rest
                    if texts.isEmpty then Except.ok tail
                    else Except.ok ((pnum, String.intercalate "\n" texts) :: tail)) = _
                rw [Except_ok_bind, ih]
                cases h6 : specBlocks rest with
                | error e => simp only [h6, Except_ok_bind, Except_error_bind]
                | ok tail => simp only [h6, Except_ok_bind, Except_error_bind]

theorem pageTextItems_dropTables : ∀ items : List JsonVal,
    pageTextItems (items.filter (fun it => !isTableItem it)) = pageTextItems items := by
  intro items
  induction items with
  | nil => rfl
  | cons it rest ih =>
    rw [List.filter_cons]
    by_cases h : isTableItem it
    · rw [h]
      show pageTextItems (List.filter (fun it => !isTableItem it) rest) = _
      cases it with
      | obj kvs =>
        have hlk : objLookup kvs "type" = some (JsonVal.str "table") := by
          have h2 : decide (objLookup kvs "type" = some (JsonVal.str "table")) = true := h
          exact of_decide_eq_true h2
        rw [ih, pageTextItems]
        have hsub : pySubscript (JsonVal.obj kvs) "type" = Except.ok (JsonVal.str "table") := by
          simp [pySubscript, hlk]
        rw [hsub, Except_ok_bind]
        dsimp only
        rw [if_neg (by decide)]
      | null => exact absurd h (by simp [isTableItem])
      | bool b => exact absurd h (by simp [isTableItem])
      | num n => exact absurd h (by simp [isTableItem])
      | str s => exact absurd h (by simp [isTableItem])
      | arr xs => exact absurd h (by simp [isTableItem])
    · rw [Bool.not_eq_true] at h
      rw [h]
      show pageTextItems (it :: List.filter (fun it => !isTableItem it) rest) = _
      rw [pageTextItems, pageTextItems]
      cases h1 : pySubscript it "type" with
      | error e => rw [Except_error_bind, Except_error_bind]
      | ok ty =>
        rw [Except_ok_bind, Except_ok_bind]
        cases ty with
        | str s =>
          dsimp only
          by_cases hs : s = "text"
          · rw [if_pos hs, if_pos hs]
            cases h2 : pySubscript it "value" with
            | error e => rw [Except_error_bind, Except_error_bind]
            | ok v =>
              rw [Except_ok_bind, Except_ok_bind]
              cases v with
              | str raw => rw [ih]
              | null => rfl
              | bool b => rfl
              | num n => rfl
              | arr xs => rfl
              | obj kvs => rfl
          · rw [if_neg hs, if_neg hs]
            exact ih
        | null => exact ih
        | bool b => exact ih
        | num n => exact ih
        | arr xs => exact ih
        | obj kvs => exact ih

theorem pyIter_dropTablesItems (v : JsonVal) :
    pyIter (dropTablesItems v) =
      Except.map (fun xs => xs.filter (fun it => !isTableItem it)) (pyIter v) := by
  cases v with
  | arr xs => rfl
  | null => rfl
  | bool b => rfl
  | num n => rfl
  | str s =>
    show Except.ok _ = Except.ok _
    congr 1
    rw [Eq.comm, List.filter_eq_self]
    intro a ha
    rw [List.mem_map] at ha
    obtain ⟨c, _, rfl⟩ := ha
    rfl
  | obj kvs =>
    show Except.ok _ = Except.ok _
    congr 1
    rw [Eq.comm, List.filter_eq_self]
    intro a ha
    rw [List.mem_map] at ha
    obtain ⟨kv, _, rfl⟩ := ha
    rfl

theorem objLookup_dropTables (kvs : List (String × JsonVal)) (k : String) :
    objLookup (kvs.map (fun kv => if kv.1 = "items" then (kv.1, dropTablesItems kv.2) else kv)) k =
      if k = "items" then (objLookup kvs k).map dropTablesItems
      else objLookup kvs k := by
  induction kvs with
  | nil => cases h : decide (k = "items") <;> simp [objLookup]
  | cons kv rest ih =>
    rw [List.map_cons]
    by_cases h1 : kv.1 = "items"
    · rw [if_pos h1]
      by_cases h2 : kv.1 = k
      · subst h2
        rw [if_pos h1]
        simp [objLookup, List.find?]
      · have h2b : (kv.1 == k) = false := by
          rw [beq_eq_false_iff_ne]
          exact h2
        simp only [objLookup, List.find?, h2b] at ih ⊢
        exact ih
    · rw [if_neg h1]
      by_cases h2 : kv.1 = k
      · subst h2
        rw [if_neg h1]
        simp [objLookup, List.find?]
      · have h2b : (kv.1 == k) = false := by
          rw [beq_eq_false_iff_ne]
          exact h2
        simp only [objLookup, List.find?, h2b] at ih ⊢
        exact ih

theorem anyKey_dropTables (kvs : List (String × JsonVal)) (k : String) :
    (kvs.map (fun kv => if kv.1 = "items" then (kv.1, dropTablesItems kv.2) else kv)).any
        (fun kv => kv.1 == k) =
      kvs.any (fun kv => kv.1 == k) := by
  rw [List.any_map]
  congr 1
  funext kv
  by_cases h : kv.1 = "items"
  · simp [h]
  · simp [h]

theorem sub_page_dropTables (page : JsonVal) :
    pySubscript (dropTables page) "page" = pySubscript page "page" := by
  cases page with
  | obj kvs =>
    show pySubscript (JsonVal.obj _) "page" = _
    simp only [pySubscript, objLookup_dropTables]
    rw [if_neg (by decide)]
  | null => rfl
  | bool b => rfl
  | num n => rfl
  | str s => rfl
  | arr xs => rfl

theorem contains_items_dropTables (page : JsonVal) :
    pyContains "items" (dropTables page) = pyContains "items" page := by
  cases page with
  | obj kvs =>
    show pyContains "items" (JsonVal.obj _) = _
    simp only [pyContains, anyKey_dropTables]
  | null => rfl
  | bool b => rfl
  | num n => rfl
  | str s => rfl
  | arr xs => rfl

theorem sub_items_dropTables (page : JsonVal) :
    pySubscript (dropTables page) "items" =
      (pySubscript page "items").map dropTablesItems := by
  cases page with
  | obj kvs =>
    show pySubscript (JsonVal.obj _) "items" = _
    simp only [pySubscript, objLookup_dropTables, if_pos rfl]
    cases objLookup kvs "items" with
    | none => rfl
    | some v => rfl
  | null => rfl
  | bool b => rfl
  | num n => rfl
  | str s => rfl
  | arr xs => rfl

theorem pageBlocks_dropTables : ∀ pages : List JsonVal,
    pageBlocks (pages.map dropTables) = pageBlocks pages := by
  intro pages
  induction pages with
  | nil => rfl
  | cons page rest ih =>
    rw [List.map_cons, pageBlocks, pageBlocks]
    rw [sub_page_dropTables, contains_items_dropTables]
    cases h1 : pySubscript page "page" with
    | error e => rw [Except_error_bind, Except_error_bind]
    | ok pnum =>
      rw [Except_ok_bind, Except_ok_bind]
      cases h2 : pyContains "items" page with
      | error e => rw [Except_error_bind, Except_error_bind]
      | ok b =>
        rw [Except_ok_bind, Except_ok_bind]
        cases b with
        | false =>
          rw [if_neg (by simp), if_neg (by simp), ih]
        | true =>
          rw [if_pos rfl, if_pos rfl, sub_items_dropTables]
          cases h3 : pySubscript page "items" with
          | error e => rfl
          | ok itemsV =>
            show (do
                let itemsV2 ← Except.ok (dropTablesItems itemsV)
                let items ← pyIter itemsV2
                let texts ← pageTextItems items
                let tail ← pageBlocks (rest.map dropTables)
                if texts.isEmpty then Except.ok tail
                else Except.ok ((pnum, String.intercalate "\n" texts) :: tail)) = _
            rw [Except_ok_bind, Except_ok_bind, pyIter_dropTablesItems]
            cases h4 : pyIter itemsV with
            | error e => rw [Except_error_bind]; rfl
            | ok items =>
              show (do
                  let items2 ← Except.ok (items.filter (fun it => !isTableItem it))
                  let texts ← pageTextItems items2
                  let tail ← pageBlocks (rest.map dropTables)
                  if texts.isEmpty then Except.ok tail
                  else Except.ok ((pnum, String.intercalate "\n" texts) :: tail)) = _
              rw [Except_ok_bind, Except_ok_bind, pageTextItems_dropTables, ih]

/-- Claim C9.  The Content Extractor refines its specification: for every
fetched page list, the per-page (page number, text block) pairs that
`process_content` feeds to the Annotator are exactly those described by
the spec — one block per page, the newline-joined concatenation of that
page's whitespace-normalised (U+2028/U+2029 removed) non-empty text
items, with no pair for a page that has no non-empty text item — and the
blocks are unchanged when every table-typed item is removed from the
pages, so table items never contribute to a block. -/
theorem C9_extractor_refinement :
    ∀ pages : List JsonVal,
      pageBlocks pages = specBlocks pages ∧
      pageBlocks (pages.map dropTables) = pageBlocks pages :=
  fun pages => ⟨pageBlocks_spec pages, pageBlocks_dropTables pages⟩

/-- Claim C10.  When the record list reaching the Spreadsheet Writer is
empty, `save_to_excel` fails (the DataFrame built from an empty list has
no columns, so sorting by 'chapter' raises KeyError), hence
`process_report` returns failure — whatever the upload and polling did —
and the exit code is 1: an empty extraction can never produce an empty
spreadsheet with exit code 0. -/
theorem C10_empty_records_fail (upload : Except String String)
    (statuses : Nat → PollInput) (loads : String → Except String JsonVal)
    (chat : String → JsonVal → CallResult) (ichat : List JsonVal → CallResult)
    (getResult : Except String JsonVal) (result : JsonVal)
    (hget : getResult = Except.ok result)
    (hempty : process_content loads chat ichat result = Except.ok []) :
    (∃ e, save_to_excel [] = Except.error e) ∧
    process_report upload statuses loads chat ichat getResult = false ∧
    exitCode (process_report upload statuses loads chat ichat getResult) = 1 := by
  have hfalse : process_report upload statuses loads chat ichat getResult = false := by
    cases upload with
    | error e => rfl
    | ok jid =>
      show (if wait_for_completion statuses 5 300 (by decide) then _ else false) = false
      by_cases hw : wait_for_completion statuses 5 300 (by decide) = true
      · rw [if_pos hw, process_pdf, hget, Except_ok_bind, hempty, Except_ok_bind]
        rfl
      · rw [if_neg hw]
  exact ⟨⟨"KeyError: chapter", by decide⟩, hfalse, by rw [hfalse]; rfl⟩

/-- Witness for C10 on a concrete run: one page of text, a model response
with an empty `items` array (so the page's annotation returns no
records), and a consolidation call that raises (as it always does on the
real interpreter), leaving the empty list for the Writer. -/
theorem C10_empty_records_witness :
    (∃ e, save_to_excel [] = Except.error e) ∧
    process_report (Except.ok "job-1")
      (fun _ => PollInput.response [("status", JsonVal.str "completed")])
      (fun _ => Except.ok (JsonVal.obj [("items", JsonVal.arr [])]))
      (fun _ _ => CallResult.ok "RESP")
      (fun _ => CallResult.exc "ValueError: unexpected brace in field name")
      (Except.ok (JsonVal.obj [("pages", JsonVal.arr [JsonVal.obj [("page", JsonVal.num 1),
        ("items", JsonVal.arr [JsonVal.obj [("type", JsonVal.str "text"),
          ("value", JsonVal.str "hello world")]])]])])) = false ∧
    exitCode (process_report (Except.ok "job-1")
      (fun _ => PollInput.response [("status", JsonVal.str "completed")])
      (fun _ => Except.ok (JsonVal.obj [("items", JsonVal.arr [])]))
      (fun _ _ => CallResult.ok "RESP")
      (fun _ => CallResult.exc "ValueError: unexpected brace in field name")
      (Except.ok (JsonVal.obj [("pages", JsonVal.arr [JsonVal.obj [("page", JsonVal.num 1),
        ("items", JsonVal.arr [JsonVal.obj [("type", JsonVal.str "text"),
          ("value", JsonVal.str "hello world")]])]])]))) = 1 :=
  C10_empty_records_fail (Except.ok "job-1")
    (fun _ => PollInput.response [("status", JsonVal.str "completed")])
    (fun _ => Except.ok (JsonVal.obj [("items", JsonVal.arr [])]))
    (fun _ _ => CallResult.ok "RESP")
    (fun _ => CallResult.exc "ValueError: unexpected brace in field name")
    (Except.ok (JsonVal.obj [("pages", JsonVal.arr [JsonVal.obj [("page", JsonVal.num 1),
      ("items", JsonVal.arr [JsonVal.obj [("type", JsonVal.str "text"),
        ("value", JsonVal.str "hello world")]])]])]))
    (JsonVal.obj [("pages", JsonVal.arr [JsonVal.obj [("page", JsonVal.num 1),
      ("items", JsonVal.arr [JsonVal.obj [("type", JsonVal.str "text"),
        ("value", JsonVal.str "hello world")]])]])])
    rfl (by decide)
